import Mathlib

/-!
Verification of the calib calendar library against its specification.

The embedding translates src/event.rs and src/cal.rs.

Modelling choices:
- chrono NaiveDateTime is modelled as an integer count of nanoseconds
  since an arbitrary epoch, chrono NaiveDate as an integer count of days,
  and chrono NaiveTime as an integer count of nanoseconds since midnight
  (chrono keeps it in [0, nsPerDay)). chrono stores nanosecond precision,
  so sub-second instants are representable. chrono leap-second
  representations are not modelled. All three are written as plain Int in
  binders.
- uuid::Uuid is an identifier type of which the code only uses equality
  and ordering; it is modelled as Nat. Uuid::new_v4 draws a fresh random
  identifier from an external generator; the generated value is passed to
  Event.new as an explicit argument.
- Rust Result is Except, and the mutators that consume self and return a
  new value are pure functions from the old Event to Except.
- BTreeMap and BTreeSet are modelled as strictly sorted association lists
  and strictly sorted lists; add_event returns the mutated calendar next
  to the Bool the Rust method returns.
-/

namespace Calib

/-- Nanoseconds in one day. -/
def nsPerDay : Int := 86400000000000

/-- chrono NaiveDateTime::new(date, time): the instant at time `t` (in
nanoseconds since midnight) of day `d`. -/
def NaiveDateTime.new (d t : Int) : Int :=
  d * nsPerDay + t

/-- chrono NaiveDateTime::date(): the calendar-date component of an
instant. -/
def NaiveDateTime.date (dt : Int) : Int := dt / nsPerDay

/-- chrono NaiveDateTime::time(): the time-of-day component of an
instant. -/
def NaiveDateTime.time (dt : Int) : Int := dt % nsPerDay

/-- chrono NaiveDateTime::signed_duration_since: the signed difference of
two instants, in nanoseconds. -/
def NaiveDateTime.signed_duration_since (a b : Int) : Int := a - b

/-- chrono Duration::num_seconds on a duration of `d` nanoseconds. chrono
normalises a duration into whole seconds `d / 10^9` (floor) plus a
nanosecond remainder in [0, 10^9), and num_seconds adds one second back
when the duration is negative with a nonzero remainder, i.e. it truncates
the duration towards zero seconds. -/
def Duration.num_seconds (d : Int) : Int :=
  if d / 1000000000 < 0 ∧ 0 < d % 1000000000
  then d / 1000000000 + 1
  else d / 1000000000

/-- Rust i64::is_positive. -/
def Int64.is_positive (n : Int) : Bool := decide (0 < n)

/-- Modelled from the spec: the EventError enum is declared in the crate
root module, which is not among the provided sources; the spec gives
exactly two recoverable error kinds, InvalidStartTime and InvalidEndTime,
and event.rs constructs exactly these two variants. -/
inductive EventError where
  | InvalidStartTime
  | InvalidEndTime
deriving DecidableEq

/-- Modelled from the spec: day_start is declared in the crate root module,
which is not among the provided sources; the spec says a new event starts
at 00:00:00, i.e. at 0 nanoseconds past midnight. -/
def day_start : Int := 0

/-- Modelled from the spec: day_end is declared in the crate root module,
which is not among the provided sources; the spec says a new event ends at
23:59:59, i.e. at 86399 whole seconds past midnight. -/
def day_end : Int := 86399000000000

/-- Event from src/event.rs: start and end are chrono NaiveDateTime
instants, id is a Uuid. Fields are declared in the order start, end, name,
id, as the derived Ord compares them in this order. -/
structure Event where
  start : Int
  «end» : Int
  name : String
  id : Nat
deriving DecidableEq

/-- Rust derive(PartialOrd, Ord) on Event: lexicographic strict order that
compares start first, then end, then name, then id. Rust compares String
bytewise, which for valid UTF-8 agrees with the codepoint order of Lean
String. -/
def Event.lt (a b : Event) : Prop :=
  a.start < b.start ∨ (a.start = b.start ∧
    (a.«end» < b.«end» ∨ (a.«end» = b.«end» ∧
      (a.name < b.name ∨ (a.name = b.name ∧ a.id < b.id)))))

instance Event.decLt (a b : Event) : Decidable (Event.lt a b) := by
  unfold Event.lt
  exact inferInstance

/-- Event::start_end_times_valid from src/event.rs: the duration from `st`
to `en`, truncated to whole seconds, is positive. -/
def Event.start_end_times_valid (st en : Int) : Bool :=
  Int64.is_positive (Duration.num_seconds (NaiveDateTime.signed_duration_since en st))

/-- Event::new from src/event.rs: an all-day event on `date`; `u` is the
identifier obtained from Uuid::new_v4. -/
def Event.new (name : String) (date : Int) (u : Nat) : Event :=
  { name := name
    start := NaiveDateTime.new date day_start
    «end» := NaiveDateTime.new date day_end
    id := u }

/-- Event::set_start from src/event.rs. -/
def Event.set_start (e : Event) (start : Int) : Except EventError Event :=
  if Event.start_end_times_valid start e.«end» then
    Except.ok { e with start := start }
  else
    Except.error EventError.InvalidStartTime

/-- Event::set_start_time from src/event.rs: combines the existing start
date with the new time-of-day. -/
def Event.set_start_time (e : Event) (start : Int) : Except EventError Event :=
  let new_start := NaiveDateTime.new (NaiveDateTime.date e.start) start
  if Event.start_end_times_valid new_start e.«end» then
    Except.ok { e with start := new_start }
  else
    Except.error EventError.InvalidStartTime

/-- Event::set_start_date from src/event.rs: combines the new date with the
existing start time-of-day. -/
def Event.set_start_date (e : Event) (start : Int) : Except EventError Event :=
  let new_start := NaiveDateTime.new start (NaiveDateTime.time e.start)
  if Event.start_end_times_valid new_start e.«end» then
    Except.ok { e with start := new_start }
  else
    Except.error EventError.InvalidStartTime

/-- Event::set_end from src/event.rs. -/
def Event.set_end (e : Event) (en : Int) : Except EventError Event :=
  if Event.start_end_times_valid e.start en then
    Except.ok { e with «end» := en }
  else
    Except.error EventError.InvalidEndTime

/-- Event::set_end_time from src/event.rs: combines the existing end date
with the new time-of-day. -/
def Event.set_end_time (e : Event) (en : Int) : Except EventError Event :=
  let new_end := NaiveDateTime.new (NaiveDateTime.date e.«end») en
  if Event.start_end_times_valid e.start new_end then
    Except.ok { e with «end» := new_end }
  else
    Except.error EventError.InvalidEndTime

/-- Event::set_end_date from src/event.rs: combines the new date with the
existing end time-of-day. -/
def Event.set_end_date (e : Event) (en : Int) : Except EventError Event :=
  let new_end := NaiveDateTime.new en (NaiveDateTime.time e.«end»)
  if Event.start_end_times_valid e.start new_end then
    Except.ok { e with «end» := new_end }
  else
    Except.error EventError.InvalidEndTime

/-- Event::set_name from src/event.rs: unconditional rename. -/
def Event.set_name (e : Event) (new_name : String) : Event :=
  { e with name := new_name }

/-- BTreeMap::insert on an association list sorted by key with unique keys:
an existing binding of the same key is overwritten. -/
def mapInsert (k : Nat) (v : Event) : List (Nat × Event) → List (Nat × Event)
  | [] => [(k, v)]
  | (k0, v0) :: xs =>
    if k < k0 then (k, v) :: (k0, v0) :: xs
    else if k = k0 then (k, v) :: xs
    else (k0, v0) :: mapInsert k v xs

/-- BTreeMap::get: lookup by key. -/
def mapGet (k : Nat) : List (Nat × Event) → Option Event
  | [] => none
  | (k0, v0) :: xs => if k = k0 then some v0 else mapGet k xs

/-- BTreeSet::insert on a list strictly sorted by the element order: returns
the new list and whether the element was actually inserted; an element
already present (the set order of Event is the derived Ord, whose
equivalence coincides with equality) leaves the set unchanged and yields
false. -/
def insertSorted (e : Event) : List Event → List Event × Bool
  | [] => ([e], true)
  | x :: xs =>
    if Event.lt e x then (e :: x :: xs, true)
    else if e = x then (x :: xs, false)
    else
      let p := insertSorted e xs
      (x :: p.1, p.2)

/-- EventCalendar from src/cal.rs: a BTreeMap from Uuid to the event and a
BTreeSet of the same events ordered by the derived Event order. Rc sharing
is dropped: stored events are immutable behind Rc, so both views hold the
event value. -/
structure EventCalendar where
  ids : List (Nat × Event)
  evts : List Event

/-- EventCalendar::default: the empty calendar. -/
def EventCalendar.default : EventCalendar := { ids := [], evts := [] }

/-- EventCalendar::add_event from src/cal.rs: inserts the event into both
views, overwriting the id binding, and returns the Bool that
BTreeSet::insert returned together with the updated calendar. -/
def EventCalendar.add_event (cal : EventCalendar) (event : Event) : Bool × EventCalendar :=
  let p := insertSorted event cal.evts
  (p.2, { ids := mapInsert event.id event cal.ids, evts := p.1 })

/-- EventCalendar::events_in_range from src/cal.rs: filters the ordered view
by: start of the event inside [start, en], or end of the event inside
[start, en]. -/
def EventCalendar.events_in_range (cal : EventCalendar) (start en : Int) : List Event :=
  cal.evts.filter fun evt =>
    decide ((start ≤ evt.start ∧ evt.start ≤ en) ∨ (start ≤ evt.«end» ∧ evt.«end» ≤ en))

/-- EventCalendar::first_event from src/cal.rs: the least stored event. -/
def EventCalendar.first_event (cal : EventCalendar) : Option Event :=
  cal.evts.head?

/-- EventCalendar::get from src/cal.rs: lookup by identifier. The Rust
signature accepts any value convertible to Uuid via IntoUuid (declared in
the crate root, not among the sources) and converts it before the lookup,
so the model takes the Uuid itself. -/
def EventCalendar.get (cal : EventCalendar) (id : Nat) : Option Event :=
  mapGet id cal.ids

/-- Calendar states reached by a sequence of add_event calls from `cal`. -/
def addEventsFrom (cal : EventCalendar) : List Event → EventCalendar
  | [] => cal
  | e :: l => addEventsFrom (cal.add_event e).2 l

/-- Calendar states reached by a sequence of add_event calls from the empty
calendar. -/
def addEvents (l : List Event) : EventCalendar :=
  addEventsFrom EventCalendar.default l

/-- Last event of the list carrying identifier `i`, if any: this is the
binding the id view holds after the whole list is inserted. -/
def lastById (i : Nat) : List Event → Option Event
  | [] => none
  | e :: l =>
    match lastById i l with
    | some x => some x
    | none => if e.id = i then some e else none

/-- Concrete event used in counterexamples. -/
def cexEvent1 : Event :=
  { start := 0, «end» := 1000000000, name := "a", id := 0 }

/-- Concrete event used in counterexamples: same identifier as cexEvent1,
different start. -/
def cexEvent2 : Event :=
  { start := 500000000, «end» := 1000000000, name := "a", id := 0 }

/-- Characterisation of Event::start_end_times_valid: the whole-second
truncated duration from `st` to `en` is positive exactly when `en` is at
least one full second after `st`. -/
theorem valid_iff (st en : Int) :
    Event.start_end_times_valid st en = true ↔ st + 1000000000 ≤ en := by
  unfold Event.start_end_times_valid Int64.is_positive Duration.num_seconds
    NaiveDateTime.signed_duration_since
  rw [decide_eq_true_iff]
  constructor <;> intro h
  · revert h
    split <;> intro h <;> omega
  · split <;> omega

theorem Event.lt_irrefl' (a : Event) : ¬ Event.lt a a := by
  unfold Event.lt
  simp

theorem Event.lt_trans' {a b c : Event} (h1 : Event.lt a b) (h2 : Event.lt b c) :
    Event.lt a c := by
  unfold Event.lt at h1 h2 ⊢
  rcases h1 with h1 | ⟨hs1, h1⟩ <;> rcases h2 with h2 | ⟨hs2, h2⟩
  · exact Or.inl (lt_trans h1 h2)
  · exact Or.inl (by rw [← hs2]; exact h1)
  · exact Or.inl (by rw [hs1]; exact h2)
  · refine Or.inr ⟨hs1.trans hs2, ?_⟩
    rcases h1 with h1 | ⟨he1, h1⟩ <;> rcases h2 with h2 | ⟨he2, h2⟩
    · exact Or.inl (lt_trans h1 h2)
    · exact Or.inl (by rw [← he2]; exact h1)
    · exact Or.inl (by rw [he1]; exact h2)
    · refine Or.inr ⟨he1.trans he2, ?_⟩
      rcases h1 with h1 | ⟨hn1, h1⟩ <;> rcases h2 with h2 | ⟨hn2, h2⟩
      · exact Or.inl (lt_trans h1 h2)
      · exact Or.inl (by rw [← hn2]; exact h1)
      · exact Or.inl (by rw [hn1]; exact h2)
      · exact Or.inr ⟨hn1.trans hn2, lt_trans h1 h2⟩

theorem Event.lt_total' (a b : Event) : Event.lt a b ∨ a = b ∨ Event.lt b a := by
  unfold Event.lt
  rcases lt_trichotomy a.start b.start with h | h | h
  · exact Or.inl (Or.inl h)
  · rcases lt_trichotomy a.«end» b.«end» with h2 | h2 | h2
    · exact Or.inl (Or.inr ⟨h, Or.inl h2⟩)
    · rcases lt_trichotomy a.name b.name with h3 | h3 | h3
      · exact Or.inl (Or.inr ⟨h, Or.inr ⟨h2, Or.inl h3⟩⟩)
      · rcases lt_trichotomy a.id b.id with h4 | h4 | h4
        · exact Or.inl (Or.inr ⟨h, Or.inr ⟨h2, Or.inr ⟨h3, h4⟩⟩⟩)
        · refine Or.inr (Or.inl ?_)
          cases a; cases b; simp_all
        · exact Or.inr (Or.inr (Or.inr ⟨h.symm, Or.inr ⟨h2.symm, Or.inr ⟨h3.symm, h4⟩⟩⟩))
      · exact Or.inr (Or.inr (Or.inr ⟨h.symm, Or.inr ⟨h2.symm, Or.inl h3⟩⟩))
    · exact Or.inr (Or.inr (Or.inr ⟨h.symm, Or.inl h2⟩))
  · exact Or.inr (Or.inr (Or.inl h))

theorem Event.lt_of_not_lt {a b : Event} (h1 : ¬ Event.lt a b) (h2 : a ≠ b) :
    Event.lt b a := by
  rcases Event.lt_total' a b with h | h | h
  · exact absurd h h1
  · exact absurd h h2
  · exact h

theorem insertSorted_mem (e x : Event) (l : List Event) :
    x ∈ (insertSorted e l).1 ↔ x = e ∨ x ∈ l := by
  induction l with
  | nil => simp [insertSorted]
  | cons y ys ih =>
    by_cases h1 : Event.lt e y
    · simp only [insertSorted, if_pos h1]
      simp [List.mem_cons]
    · by_cases h2 : e = y
      · subst h2
        simp only [insertSorted, if_neg h1, if_pos rfl]
        simp [List.mem_cons]
      · simp only [insertSorted, if_neg h1, if_neg h2]
        simp only [List.mem_cons]
        rw [ih]
        tauto

end Calib

namespace Calib

theorem insertSorted_flag (e : Event) (l : List Event) (hs : l.Pairwise Event.lt) :
    ((insertSorted e l).2 = true ↔ e ∉ l) := by
  induction l with
  | nil => simp [insertSorted]
  | cons y ys ih =>
    rcases List.pairwise_cons.mp hs with ⟨hy, hys⟩
    by_cases h1 : Event.lt e y
    · have hnotmem : e ∉ y :: ys := by
        intro hmem
        rcases List.mem_cons.mp hmem with rfl | hmem
        · exact Event.lt_irrefl' e h1
        · exact Event.lt_irrefl' e (Event.lt_trans' h1 (hy e hmem))
      simp only [insertSorted, if_pos h1]
      simp [hnotmem]
    · by_cases h2 : e = y
      · subst h2
        simp only [insertSorted, if_neg h1, if_pos rfl]
        simp
      · simp only [insertSorted, if_neg h1, if_neg h2]
        rw [ih hys]
        simp [List.mem_cons, h2]

theorem insertSorted_sorted (e : Event) (l : List Event) (hs : l.Pairwise Event.lt) :
    (insertSorted e l).1.Pairwise Event.lt := by
  induction l with
  | nil => simp [insertSorted]
  | cons y ys ih =>
    rcases List.pairwise_cons.mp hs with ⟨hy, hys⟩
    by_cases h1 : Event.lt e y
    · simp only [insertSorted, if_pos h1]
      refine List.pairwise_cons.mpr ⟨?_, hs⟩
      intro a ha
      rcases List.mem_cons.mp ha with rfl | ha
      · exact h1
      · exact Event.lt_trans' h1 (hy a ha)
    · by_cases h2 : e = y
      · subst h2
        simp only [insertSorted, if_neg h1, if_pos rfl]
        exact hs
      · simp only [insertSorted, if_neg h1, if_neg h2]
        refine List.pairwise_cons.mpr ⟨?_, ih hys⟩
        intro a ha
        rcases (insertSorted_mem e a ys).mp ha with rfl | ha
        · exact Event.lt_of_not_lt h1 h2
        · exact hy a ha

theorem mapGet_mapInsert (k k2 : Nat) (v : Event) (m : List (Nat × Event)) :
    mapGet k (mapInsert k2 v m) = if k = k2 then some v else mapGet k m := by
  induction m with
  | nil => simp [mapInsert, mapGet]
  | cons x xs ih =>
    obtain ⟨k0, v0⟩ := x
    by_cases h1 : k2 < k0
    · by_cases h3 : k = k2 <;> simp [mapInsert, mapGet, h1, h3]
    · by_cases h2 : k2 = k0
      · subst h2
        by_cases h3 : k = k2 <;> simp [mapInsert, mapGet, h1, h3]
      · by_cases h3 : k = k0
        · subst h3
          have hk : ¬(k = k2) := fun hh => h2 hh.symm
          simp [mapInsert, mapGet, h1, h2, ih, hk]
        · simp [mapInsert, mapGet, h1, h2, h3, ih]

theorem addEventsFrom_evts_mem (l : List Event) (c : EventCalendar) (x : Event) :
    x ∈ (addEventsFrom c l).evts ↔ x ∈ c.evts ∨ x ∈ l := by
  induction l generalizing c with
  | nil => simp [addEventsFrom]
  | cons e es ih =>
    simp only [addEventsFrom]
    rw [ih]
    show x ∈ (insertSorted e c.evts).1 ∨ x ∈ es ↔ _
    rw [insertSorted_mem]
    simp [List.mem_cons]
    tauto

theorem addEventsFrom_evts_sorted (l : List Event) (c : EventCalendar)
    (hs : c.evts.Pairwise Event.lt) : (addEventsFrom c l).evts.Pairwise Event.lt := by
  induction l generalizing c with
  | nil => exact hs
  | cons e es ih =>
    exact ih _ (insertSorted_sorted e c.evts hs)

theorem addEvents_evts_mem (l : List Event) (x : Event) :
    x ∈ (addEvents l).evts ↔ x ∈ l := by
  rw [addEvents, addEventsFrom_evts_mem]
  simp [EventCalendar.default]

theorem addEvents_evts_sorted (l : List Event) :
    (addEvents l).evts.Pairwise Event.lt := by
  exact addEventsFrom_evts_sorted l EventCalendar.default (by simp [EventCalendar.default])

theorem add_event_get (c : EventCalendar) (e : Event) (i : Nat) :
    (c.add_event e).2.get i = if i = e.id then some e else c.get i := by
  simp [EventCalendar.add_event, EventCalendar.get, mapGet_mapInsert]

theorem addEventsFrom_get (l : List Event) (c : EventCalendar) (i : Nat) :
    (addEventsFrom c l).get i =
      match lastById i l with
      | some x => some x
      | none => c.get i := by
  induction l generalizing c with
  | nil => simp [addEventsFrom, lastById]
  | cons e es ih =>
    simp only [addEventsFrom, lastById]
    rw [ih]
    cases h : lastById i es with
    | some x => simp
    | none =>
      simp only [add_event_get]
      by_cases h2 : e.id = i
      · subst h2
        simp
      · have hk : ¬(i = e.id) := fun h3 => h2 h3.symm
        simp [h2, hk]

theorem lastById_eq_some (i : Nat) (l : List Event) (x : Event)
    (h : lastById i l = some x) : x ∈ l ∧ x.id = i := by
  induction l with
  | nil => simp [lastById] at h
  | cons e es ih =>
    simp only [lastById] at h
    cases h2 : lastById i es with
    | some y =>
      rw [h2] at h
      injection h with h
      subst h
      obtain ⟨hm, hi⟩ := ih h2
      exact ⟨List.mem_cons_of_mem _ hm, hi⟩
    | none =>
      rw [h2] at h
      by_cases he : e.id = i
      · rw [if_pos he] at h
        injection h with h
        subst h
        exact ⟨List.mem_cons_self e es, he⟩
      · rw [if_neg he] at h
        simp at h

theorem lastById_of_mem (i : Nat) (l : List Event) (x : Event)
    (hm : x ∈ l) (hi : x.id = i) : ∃ y, lastById i l = some y := by
  induction l with
  | nil => simp at hm
  | cons e es ih =>
    rcases List.mem_cons.mp hm with rfl | hm2
    · cases h2 : lastById i es with
      | some y => exact ⟨y, by simp [lastById, h2]⟩
      | none => exact ⟨x, by simp [lastById, h2, hi]⟩
    · obtain ⟨y, hy⟩ := ih hm2
      exact ⟨y, by simp [lastById, hy]⟩

theorem lastById_eq_none (i : Nat) (l : List Event) (h : ∀ e ∈ l, e.id ≠ i) :
    lastById i l = none := by
  induction l with
  | nil => rfl
  | cons e es ih =>
    simp only [lastById]
    rw [ih (fun x hx => h x (List.mem_cons_of_mem _ hx))]
    simp [h e (List.mem_cons_self e es)]

theorem set_start_eq (e : Event) (s : Int) :
    e.set_start s =
      if s + 1000000000 ≤ e.«end» then Except.ok { e with start := s }
      else Except.error EventError.InvalidStartTime := by
  unfold Event.set_start
  by_cases h : s + 1000000000 ≤ e.«end»
  · rw [if_pos ((valid_iff s e.«end»).mpr h), if_pos h]
  · rw [if_neg (fun hc => h ((valid_iff s e.«end»).mp hc)), if_neg h]

theorem set_start_time_eq (e : Event) (t : Int) :
    e.set_start_time t =
      if NaiveDateTime.new (NaiveDateTime.date e.start) t + 1000000000 ≤ e.«end»
      then Except.ok { e with start := NaiveDateTime.new (NaiveDateTime.date e.start) t }
      else Except.error EventError.InvalidStartTime := by
  unfold Event.set_start_time
  by_cases h : NaiveDateTime.new (NaiveDateTime.date e.start) t + 1000000000 ≤ e.«end»
  · rw [if_pos ((valid_iff _ e.«end»).mpr h), if_pos h]
  · rw [if_neg (fun hc => h ((valid_iff _ e.«end»).mp hc)), if_neg h]

theorem set_start_date_eq (e : Event) (d : Int) :
    e.set_start_date d =
      if NaiveDateTime.new d (NaiveDateTime.time e.start) + 1000000000 ≤ e.«end»
      then Except.ok { e with start := NaiveDateTime.new d (NaiveDateTime.time e.start) }
      else Except.error EventError.InvalidStartTime := by
  unfold Event.set_start_date
  by_cases h : NaiveDateTime.new d (NaiveDateTime.time e.start) + 1000000000 ≤ e.«end»
  · rw [if_pos ((valid_iff _ e.«end»).mpr h), if_pos h]
  · rw [if_neg (fun hc => h ((valid_iff _ e.«end»).mp hc)), if_neg h]

theorem set_end_eq (e : Event) (s : Int) :
    e.set_end s =
      if e.start + 1000000000 ≤ s then Except.ok { e with «end» := s }
      else Except.error EventError.InvalidEndTime := by
  unfold Event.set_end
  by_cases h : e.start + 1000000000 ≤ s
  · rw [if_pos ((valid_iff e.start s).mpr h), if_pos h]
  · rw [if_neg (fun hc => h ((valid_iff e.start s).mp hc)), if_neg h]

theorem set_end_time_eq (e : Event) (t : Int) :
    e.set_end_time t =
      if e.start + 1000000000 ≤ NaiveDateTime.new (NaiveDateTime.date e.«end») t
      then Except.ok { e with «end» := NaiveDateTime.new (NaiveDateTime.date e.«end») t }
      else Except.error EventError.InvalidEndTime := by
  unfold Event.set_end_time
  by_cases h : e.start + 1000000000 ≤ NaiveDateTime.new (NaiveDateTime.date e.«end») t
  · rw [if_pos ((valid_iff e.start _).mpr h), if_pos h]
  · rw [if_neg (fun hc => h ((valid_iff e.start _).mp hc)), if_neg h]

theorem set_end_date_eq (e : Event) (d : Int) :
    e.set_end_date d =
      if e.start + 1000000000 ≤ NaiveDateTime.new d (NaiveDateTime.time e.«end»)
      then Except.ok { e with «end» := NaiveDateTime.new d (NaiveDateTime.time e.«end») }
      else Except.error EventError.InvalidEndTime := by
  unfold Event.set_end_date
  by_cases h : e.start + 1000000000 ≤ NaiveDateTime.new d (NaiveDateTime.time e.«end»)
  · rw [if_pos ((valid_iff e.start _).mpr h), if_pos h]
  · rw [if_neg (fun hc => h ((valid_iff e.start _).mp hc)), if_neg h]

end Calib

namespace Calib

theorem addEvents_get (l : List Event) (i : Nat) :
    (addEvents l).get i = lastById i l := by
  unfold addEvents
  rw [addEventsFrom_get]
  cases lastById i l with
  | some x => simp
  | none => simp [EventCalendar.get, EventCalendar.default, mapGet]

/-- C1 counterexample: the claim says a time-bound mutation succeeds if and
only if the candidate end is strictly chronologically after the candidate
start. On the event with start 0 and end 1 s, the call set_end 500000000
proposes an end half a second after the start, strictly later, yet the
code rejects it: the duration truncated to whole seconds is 0, which is
not positive. -/
theorem C1_counterexample :
    (0 : Int) < 500000000 ∧
    cexEvent1.start = 0 ∧
    Event.set_end cexEvent1 500000000 = Except.error EventError.InvalidEndTime := by
  exact ⟨by decide, rfl, rfl⟩

/-- C1 (amended): a mutation of a time bound succeeds if and only if the
candidate pair (start, end) has end at least one full second after start
(the duration truncated to whole seconds is strictly positive); zero,
negative and sub-second positive durations are all invalid, and in
particular equal start and end is invalid. The same rule holds for
construction: every Event produced by new or by a successful mutator
satisfies Event.start_end_times_valid. -/
theorem C1_validity :
    (∀ (e : Event) (s : Int),
        (∃ e2, e.set_start s = Except.ok e2) ↔ s + 1000000000 ≤ e.«end»)
    ∧ (∀ (e : Event) (t : Int),
        (∃ e2, e.set_start_time t = Except.ok e2) ↔
          NaiveDateTime.new (NaiveDateTime.date e.start) t + 1000000000 ≤ e.«end»)
    ∧ (∀ (e : Event) (d : Int),
        (∃ e2, e.set_start_date d = Except.ok e2) ↔
          NaiveDateTime.new d (NaiveDateTime.time e.start) + 1000000000 ≤ e.«end»)
    ∧ (∀ (e : Event) (s : Int),
        (∃ e2, e.set_end s = Except.ok e2) ↔ e.start + 1000000000 ≤ s)
    ∧ (∀ (e : Event) (t : Int),
        (∃ e2, e.set_end_time t = Except.ok e2) ↔
          e.start + 1000000000 ≤ NaiveDateTime.new (NaiveDateTime.date e.«end») t)
    ∧ (∀ (e : Event) (d : Int),
        (∃ e2, e.set_end_date d = Except.ok e2) ↔
          e.start + 1000000000 ≤ NaiveDateTime.new d (NaiveDateTime.time e.«end»))
    ∧ (∀ (name : String) (d : Int) (u : Nat),
        Event.start_end_times_valid (Event.new name d u).start (Event.new name d u).«end» = true)
    ∧ (∀ (e e2 : Event) (s : Int), e.set_start s = Except.ok e2 →
        Event.start_end_times_valid e2.start e2.«end» = true)
    ∧ (∀ (e e2 : Event) (t : Int), e.set_start_time t = Except.ok e2 →
        Event.start_end_times_valid e2.start e2.«end» = true)
    ∧ (∀ (e e2 : Event) (d : Int), e.set_start_date d = Except.ok e2 →
        Event.start_end_times_valid e2.start e2.«end» = true)
    ∧ (∀ (e e2 : Event) (s : Int), e.set_end s = Except.ok e2 →
        Event.start_end_times_valid e2.start e2.«end» = true)
    ∧ (∀ (e e2 : Event) (t : Int), e.set_end_time t = Except.ok e2 →
        Event.start_end_times_valid e2.start e2.«end» = true)
    ∧ (∀ (e e2 : Event) (d : Int), e.set_end_date d = Except.ok e2 →
        Event.start_end_times_valid e2.start e2.«end» = true) := by
  refine ⟨?_, ?_, ?_, ?_, ?_, ?_, ?_, ?_, ?_, ?_, ?_, ?_, ?_⟩
  · intro e s
    rw [set_start_eq]
    by_cases h : s + 1000000000 ≤ e.«end» <;> simp [h]
  · intro e t
    rw [set_start_time_eq]
    by_cases h : NaiveDateTime.new (NaiveDateTime.date e.start) t + 1000000000 ≤ e.«end» <;>
      simp [h]
  · intro e d
    rw [set_start_date_eq]
    by_cases h : NaiveDateTime.new d (NaiveDateTime.time e.start) + 1000000000 ≤ e.«end» <;>
      simp [h]
  · intro e s
    rw [set_end_eq]
    by_cases h : e.start + 1000000000 ≤ s <;> simp [h]
  · intro e t
    rw [set_end_time_eq]
    by_cases h : e.start + 1000000000 ≤ NaiveDateTime.new (NaiveDateTime.date e.«end») t <;>
      simp [h]
  · intro e d
    rw [set_end_date_eq]
    by_cases h : e.start + 1000000000 ≤ NaiveDateTime.new d (NaiveDateTime.time e.«end») <;>
      simp [h]
  · intro name d u
    rw [valid_iff]
    simp only [Event.new, NaiveDateTime.new, day_start, day_end, nsPerDay]
    omega
  · intro e e2 s h
    by_cases hc : s + 1000000000 ≤ e.«end»
    · rw [set_start_eq, if_pos hc] at h
      injection h with h
      subst h
      exact (valid_iff _ _).mpr hc
    · rw [set_start_eq, if_neg hc] at h
      simp at h
  · intro e e2 t h
    by_cases hc : NaiveDateTime.new (NaiveDateTime.date e.start) t + 1000000000 ≤ e.«end»
    · rw [set_start_time_eq, if_pos hc] at h
      injection h with h
      subst h
      exact (valid_iff _ _).mpr hc
    · rw [set_start_time_eq, if_neg hc] at h
      simp at h
  · intro e e2 d h
    by_cases hc : NaiveDateTime.new d (NaiveDateTime.time e.start) + 1000000000 ≤ e.«end»
    · rw [set_start_date_eq, if_pos hc] at h
      injection h with h
      subst h
      exact (valid_iff _ _).mpr hc
    · rw [set_start_date_eq, if_neg hc] at h
      simp at h
  · intro e e2 s h
    by_cases hc : e.start + 1000000000 ≤ s
    · rw [set_end_eq, if_pos hc] at h
      injection h with h
      subst h
      exact (valid_iff _ _).mpr hc
    · rw [set_end_eq, if_neg hc] at h
      simp at h
  · intro e e2 t h
    by_cases hc : e.start + 1000000000 ≤ NaiveDateTime.new (NaiveDateTime.date e.«end») t
    · rw [set_end_time_eq, if_pos hc] at h
      injection h with h
      subst h
      exact (valid_iff _ _).mpr hc
    · rw [set_end_time_eq, if_neg hc] at h
      simp at h
  · intro e e2 d h
    by_cases hc : e.start + 1000000000 ≤ NaiveDateTime.new d (NaiveDateTime.time e.«end»)
    · rw [set_end_date_eq, if_pos hc] at h
      injection h with h
      subst h
      exact (valid_iff _ _).mpr hc
    · rw [set_end_date_eq, if_neg hc] at h
      simp at h

/-- C1 witness: the successful-mutator component of C1_validity applied at a
concrete event, discharging the success hypothesis by computation. -/
theorem C1_validity_witness :
    Event.start_end_times_valid
      ({ start := 0, «end» := 2000000000, name := "w", id := 1 } : Event).start
      ({ start := 0, «end» := 2000000000, name := "w", id := 1 } : Event).«end» = true :=
  C1_validity.2.2.2.2.2.2.2.1
    { start := 5, «end» := 2000000000, name := "w", id := 1 }
    { start := 0, «end» := 2000000000, name := "w", id := 1 }
    0 rfl

end Calib

namespace Calib

/-- C5 counterexample: the claim says a mutator errors exactly when its
candidate pair violates the validity rule of C1, i.e. exactly when the
candidate start is not strictly before the end. On the event with start 0
and end 1 s, set_start 999999999 proposes a start strictly before the
end, yet the call returns InvalidStartTime, because the remaining
duration is under one whole second. -/
theorem C5_counterexample :
    (999999999 : Int) < 1000000000 ∧
    cexEvent1.«end» = 1000000000 ∧
    Event.set_start cexEvent1 999999999 = Except.error EventError.InvalidStartTime := by
  exact ⟨by decide, rfl, rfl⟩

/-- C5 (amended): every failing start-mutator returns exactly
InvalidStartTime and every failing end-mutator returns exactly
InvalidEndTime, as a value of the Result type; a mutator fails if and only
if its candidate pair violates the validity rule the code applies, namely
a whole-second duration that is not strictly positive (end less than one
full second after start); otherwise it returns Ok of the updated event.
Failure produces no event at all, so no partially updated Event is
observable; the mutators are pure consume-and-return functions. -/
theorem C5_errors :
    (∀ (e : Event) (s : Int),
        (s + 1000000000 ≤ e.«end» → e.set_start s = Except.ok { e with start := s })
        ∧ (¬ s + 1000000000 ≤ e.«end» →
            e.set_start s = Except.error EventError.InvalidStartTime))
    ∧ (∀ (e : Event) (t : Int),
        (NaiveDateTime.new (NaiveDateTime.date e.start) t + 1000000000 ≤ e.«end» →
            e.set_start_time t =
              Except.ok { e with start := NaiveDateTime.new (NaiveDateTime.date e.start) t })
        ∧ (¬ NaiveDateTime.new (NaiveDateTime.date e.start) t + 1000000000 ≤ e.«end» →
            e.set_start_time t = Except.error EventError.InvalidStartTime))
    ∧ (∀ (e : Event) (d : Int),
        (NaiveDateTime.new d (NaiveDateTime.time e.start) + 1000000000 ≤ e.«end» →
            e.set_start_date d =
              Except.ok { e with start := NaiveDateTime.new d (NaiveDateTime.time e.start) })
        ∧ (¬ NaiveDateTime.new d (NaiveDateTime.time e.start) + 1000000000 ≤ e.«end» →
            e.set_start_date d = Except.error EventError.InvalidStartTime))
    ∧ (∀ (e : Event) (s : Int),
        (e.start + 1000000000 ≤ s → e.set_end s = Except.ok { e with «end» := s })
        ∧ (¬ e.start + 1000000000 ≤ s →
            e.set_end s = Except.error EventError.InvalidEndTime))
    ∧ (∀ (e : Event) (t : Int),
        (e.start + 1000000000 ≤ NaiveDateTime.new (NaiveDateTime.date e.«end») t →
            e.set_end_time t =
              Except.ok { e with «end» := NaiveDateTime.new (NaiveDateTime.date e.«end») t })
        ∧ (¬ e.start + 1000000000 ≤ NaiveDateTime.new (NaiveDateTime.date e.«end») t →
            e.set_end_time t = Except.error EventError.InvalidEndTime))
    ∧ (∀ (e : Event) (d : Int),
        (e.start + 1000000000 ≤ NaiveDateTime.new d (NaiveDateTime.time e.«end») →
            e.set_end_date d =
              Except.ok { e with «end» := NaiveDateTime.new d (NaiveDateTime.time e.«end») })
        ∧ (¬ e.start + 1000000000 ≤ NaiveDateTime.new d (NaiveDateTime.time e.«end») →
            e.set_end_date d = Except.error EventError.InvalidEndTime)) := by
  refine ⟨?_, ?_, ?_, ?_, ?_, ?_⟩
  · intro e s
    exact ⟨fun h => by rw [set_start_eq, if_pos h],
           fun h => by rw [set_start_eq, if_neg h]⟩
  · intro e t
    exact ⟨fun h => by rw [set_start_time_eq, if_pos h],
           fun h => by rw [set_start_time_eq, if_neg h]⟩
  · intro e d
    exact ⟨fun h => by rw [set_start_date_eq, if_pos h],
           fun h => by rw [set_start_date_eq, if_neg h]⟩
  · intro e s
    exact ⟨fun h => by rw [set_end_eq, if_pos h],
           fun h => by rw [set_end_eq, if_neg h]⟩
  · intro e t
    exact ⟨fun h => by rw [set_end_time_eq, if_pos h],
           fun h => by rw [set_end_time_eq, if_neg h]⟩
  · intro e d
    exact ⟨fun h => by rw [set_end_date_eq, if_pos h],
           fun h => by rw [set_end_date_eq, if_neg h]⟩

/-- C5 witness: the failing set_end component of C5_errors applied at a
concrete event, discharging the violated-rule hypothesis by computation. -/
theorem C5_errors_witness :
    Event.set_end cexEvent1 0 = Except.error EventError.InvalidEndTime :=
  (C5_errors.2.2.2.1 cexEvent1 0).2 (by decide)

/-- C7: Event::new always succeeds and yields the full-day event on the
given date: start is 00:00:00 on that date, end is 23:59:59 on the same
date (witnessed both as the composed instants and through the date and
time-of-day projections), the name is the given name and the id is the
identifier drawn from the external Uuid generator. -/
theorem C7_new :
    ∀ (name : String) (d : Int) (u : Nat),
      (Event.new name d u).start = NaiveDateTime.new d day_start
      ∧ (Event.new name d u).«end» = NaiveDateTime.new d day_end
      ∧ NaiveDateTime.date (Event.new name d u).start = d
      ∧ NaiveDateTime.time (Event.new name d u).start = day_start
      ∧ NaiveDateTime.date (Event.new name d u).«end» = d
      ∧ NaiveDateTime.time (Event.new name d u).«end» = day_end
      ∧ (Event.new name d u).name = name
      ∧ (Event.new name d u).id = u := by
  intro name d u
  refine ⟨rfl, rfl, ?_, ?_, ?_, ?_, rfl, rfl⟩
  · simp only [Event.new, NaiveDateTime.new, NaiveDateTime.date, day_start, nsPerDay]
    omega
  · simp only [Event.new, NaiveDateTime.new, NaiveDateTime.time, day_start, nsPerDay]
    omega
  · simp only [Event.new, NaiveDateTime.new, NaiveDateTime.date, day_end, nsPerDay]
    omega
  · simp only [Event.new, NaiveDateTime.new, NaiveDateTime.time, day_end, nsPerDay]
    omega

/-- C7 witness: C7_new applied at the example of the spec, a standup event
on a concrete date. -/
theorem C7_new_witness :
    (Event.new ("Standup") 19732 42).start = NaiveDateTime.new 19732 day_start
    ∧ NaiveDateTime.date (Event.new ("Standup") 19732 42).«end» = 19732 := by
  exact ⟨(C7_new ("Standup") 19732 42).1, (C7_new ("Standup") 19732 42).2.2.2.2.1⟩

/-- C8: the time and date variants of the mutators form their candidate
instant by combining the retained component of the existing bound with the
new one, and then behave exactly as set_start respectively set_end on that
candidate: set_start_time keeps the start date, set_start_date keeps the
start time-of-day, set_end_time keeps the end date, set_end_date keeps the
end time-of-day. -/
theorem C8_time_date_mutators :
    (∀ (e : Event) (t : Int),
        e.set_start_time t = e.set_start (NaiveDateTime.new (NaiveDateTime.date e.start) t))
    ∧ (∀ (e : Event) (d : Int),
        e.set_start_date d = e.set_start (NaiveDateTime.new d (NaiveDateTime.time e.start)))
    ∧ (∀ (e : Event) (t : Int),
        e.set_end_time t = e.set_end (NaiveDateTime.new (NaiveDateTime.date e.«end») t))
    ∧ (∀ (e : Event) (d : Int),
        e.set_end_date d = e.set_end (NaiveDateTime.new d (NaiveDateTime.time e.«end»))) := by
  exact ⟨fun e t => rfl, fun e d => rfl, fun e t => rfl, fun e d => rfl⟩

/-- C8 witness: C8_time_date_mutators applied at a concrete event and
time-of-day. -/
theorem C8_time_date_mutators_witness :
    Event.set_start_time cexEvent1 3000000000 =
      Event.set_start cexEvent1 (NaiveDateTime.new (NaiveDateTime.date cexEvent1.start) 3000000000) :=
  C8_time_date_mutators.1 cexEvent1 3000000000

/-- C9: a successful set_start replaces only the start field, keeping end,
name and id; a successful set_end replaces only the end field, keeping
start, name and id. -/
theorem C9_frame :
    (∀ (e e2 : Event) (s : Int), e.set_start s = Except.ok e2 →
        e2.start = s ∧ e2.«end» = e.«end» ∧ e2.name = e.name ∧ e2.id = e.id)
    ∧ (∀ (e e2 : Event) (s : Int), e.set_end s = Except.ok e2 →
        e2.«end» = s ∧ e2.start = e.start ∧ e2.name = e.name ∧ e2.id = e.id) := by
  constructor
  · intro e e2 s h
    by_cases hc : s + 1000000000 ≤ e.«end»
    · rw [set_start_eq, if_pos hc] at h
      injection h with h
      subst h
      exact ⟨rfl, rfl, rfl, rfl⟩
    · rw [set_start_eq, if_neg hc] at h
      simp at h
  · intro e e2 s h
    by_cases hc : e.start + 1000000000 ≤ s
    · rw [set_end_eq, if_pos hc] at h
      injection h with h
      subst h
      exact ⟨rfl, rfl, rfl, rfl⟩
    · rw [set_end_eq, if_neg hc] at h
      simp at h

/-- C9 witness: the set_start component of C9_frame applied at a concrete
event, discharging the success hypothesis by computation. -/
theorem C9_frame_witness :
    ({ start := 0, «end» := 2000000000, name := "w", id := 7 } : Event).start = 0
    ∧ ({ start := 0, «end» := 2000000000, name := "w", id := 7 } : Event).«end» =
        ({ start := 5, «end» := 2000000000, name := "w", id := 7 } : Event).«end»
    ∧ ({ start := 0, «end» := 2000000000, name := "w", id := 7 } : Event).name =
        ({ start := 5, «end» := 2000000000, name := "w", id := 7 } : Event).name
    ∧ ({ start := 0, «end» := 2000000000, name := "w", id := 7 } : Event).id =
        ({ start := 5, «end» := 2000000000, name := "w", id := 7 } : Event).id :=
  C9_frame.1
    { start := 5, «end» := 2000000000, name := "w", id := 7 }
    { start := 0, «end» := 2000000000, name := "w", id := 7 }
    0 rfl

end Calib

namespace Calib

/-- C2 counterexample: the claim says add_event returns false whenever an
event with the same identifier already exists, regardless of the other
fields. Inserting cexEvent2, which shares its identifier with the already
stored cexEvent1 but has a different start, returns true. -/
theorem C2_counterexample :
    cexEvent2.id = cexEvent1.id ∧
    ((addEvents [cexEvent1]).add_event cexEvent2).1 = true := by
  exact ⟨rfl, rfl⟩

/-- C2 (amended): add_event returns true exactly once per distinct Event
value, not per distinct identifier: on a calendar built by any sequence of
insertions, add_event e returns true if and only if e, compared by all
four fields, was never inserted before. Re-inserting an event equal in all
four fields returns false, but an event sharing only the identifier with
a previously inserted one returns true again. -/
theorem C2_add_event :
    ∀ (l : List Event) (e : Event),
      ((addEvents l).add_event e).1 = true ↔ e ∉ l := by
  intro l e
  show (insertSorted e (addEvents l).evts).2 = true ↔ e ∉ l
  rw [insertSorted_flag e _ (addEvents_evts_sorted l)]
  simp [addEvents_evts_mem]

/-- C2 witness: C2_add_event applied at a concrete calendar and event,
discharging the not-previously-inserted hypothesis by computation. -/
theorem C2_add_event_witness :
    ((addEvents [cexEvent1]).add_event cexEvent2).1 = true :=
  (C2_add_event [cexEvent1] cexEvent2).mpr (by decide)

/-- C3 counterexample: the claim says the two views always hold the same
logical set of events in every reachable state. After inserting cexEvent1
and then cexEvent2, which shares its identifier but differs in start, the
sorted set still holds cexEvent1 while the identifier mapping does not
reach it any more: no lookup returns it. -/
theorem C3_counterexample :
    cexEvent2.id = cexEvent1.id ∧
    cexEvent1 ∈ (addEvents [cexEvent1, cexEvent2]).evts ∧
    ¬ ∃ i, (addEvents [cexEvent1, cexEvent2]).get i = some cexEvent1 := by
  refine ⟨rfl, by decide, ?_⟩
  rintro ⟨i, h⟩
  have h2 : (if i = 0 then some cexEvent2 else none) = some cexEvent1 := h
  by_cases hi : i = 0
  · rw [if_pos hi] at h2
    injection h2 with h2
    exact absurd h2 (by decide)
  · rw [if_neg hi] at h2
    simp at h2

/-- C3 (amended): on every calendar built from the empty one by add_event
calls in which any two inserted events sharing an identifier are equal as
values, the two views agree: an event is reachable by some identifier
lookup if and only if it is in the sorted set. Without that restriction
the invariant fails, as re-inserting an identifier with changed fields
strands the old value in the sorted set only. -/
theorem C3_views :
    ∀ (l : List Event), (∀ a ∈ l, ∀ b ∈ l, a.id = b.id → a = b) →
      ∀ e : Event, ((∃ i, (addEvents l).get i = some e) ↔ e ∈ (addEvents l).evts) := by
  intro l hl e
  rw [addEvents_evts_mem]
  constructor
  · rintro ⟨i, h⟩
    rw [addEvents_get] at h
    exact (lastById_eq_some i l e h).1
  · intro hm
    obtain ⟨y, hy⟩ := lastById_of_mem e.id l e hm rfl
    obtain ⟨hym, hyid⟩ := lastById_eq_some e.id l y hy
    have hye : y = e := hl y hym e hm hyid
    refine ⟨e.id, ?_⟩
    rw [addEvents_get, hy, hye]

/-- C3 witness: C3_views applied at a concrete two-event calendar with
distinct identifiers, discharging the compatibility hypothesis by
computation. -/
theorem C3_views_witness :
    (∃ i, (addEvents [cexEvent1, { cexEvent2 with id := 3 }]).get i = some cexEvent1) ↔
      cexEvent1 ∈ (addEvents [cexEvent1, { cexEvent2 with id := 3 }]).evts :=
  C3_views [cexEvent1, { cexEvent2 with id := 3 }] (by decide) cexEvent1

/-- C4: events_in_range s t yields exactly the stored events whose start
lies in [s, t] or whose end lies in [s, t], in ascending order of the
Event total order, which compares start, then end, then name, then id.
The result is a finite list computed by a pure function of the calendar
state, so every re-invocation on the same state yields the same
sequence. -/
theorem C4_events_in_range :
    ∀ (l : List Event) (s t : Int),
      (∀ x, x ∈ (addEvents l).events_in_range s t ↔
        x ∈ (addEvents l).evts ∧
          ((s ≤ x.start ∧ x.start ≤ t) ∨ (s ≤ x.«end» ∧ x.«end» ≤ t)))
      ∧ ((addEvents l).events_in_range s t).Pairwise Event.lt := by
  intro l s t
  constructor
  · intro x
    unfold EventCalendar.events_in_range
    rw [List.mem_filter]
    simp
  · unfold EventCalendar.events_in_range
    exact List.Pairwise.filter _ (addEvents_evts_sorted l)

/-- C4 witness: C4_events_in_range applied at a concrete calendar and
window. -/
theorem C4_events_in_range_witness :
    cexEvent1 ∈ (addEvents [cexEvent1]).events_in_range 0 2000000000 :=
  ((C4_events_in_range [cexEvent1] 0 2000000000).1 cexEvent1).mpr (by decide)

/-- C6: after add_event e on any calendar state, get with the identifier of
e returns some event equal to e in all four fields; and on a calendar in
which no event with identifier i was ever inserted, get i returns none. -/
theorem C6_get :
    (∀ (cal : EventCalendar) (e : Event), (cal.add_event e).2.get e.id = some e)
    ∧ (∀ (l : List Event) (i : Nat), (∀ e ∈ l, e.id ≠ i) → (addEvents l).get i = none) := by
  constructor
  · intro cal e
    rw [add_event_get]
    simp
  · intro l i h
    rw [addEvents_get]
    exact lastById_eq_none i l h

/-- C6 witness: the absent-identifier component of C6_get applied at a
concrete calendar, discharging the never-inserted hypothesis by
computation, next to the present-identifier component at a concrete
insertion. -/
theorem C6_get_witness :
    (addEvents [cexEvent1]).get 5 = none ∧
    ((addEvents [cexEvent1]).add_event cexEvent2).2.get cexEvent2.id = some cexEvent2 :=
  ⟨C6_get.2 [cexEvent1] 5 (by decide), C6_get.1 (addEvents [cexEvent1]) cexEvent2⟩

/-- C10: a query window whose start lies strictly after its end selects
nothing: events_in_range returns the empty sequence on every calendar
state. -/
theorem C10_empty_range :
    ∀ (cal : EventCalendar) (s t : Int), t < s → cal.events_in_range s t = [] := by
  intro cal s t h
  unfold EventCalendar.events_in_range
  rw [List.filter_eq_nil_iff]
  intro x hx
  simp only [decide_eq_true_iff]
  omega

/-- C10 witness: C10_empty_range applied at a concrete calendar and empty
window, discharging the reversed-window hypothesis by computation. -/
theorem C10_empty_range_witness :
    (addEvents [cexEvent1]).events_in_range 1 0 = [] :=
  C10_empty_range (addEvents [cexEvent1]) 1 0 (by decide)

end Calib
